import Mathlib

/-
Verification development for catalyst/exchange/data_portal_exchange.py.

The file shallowly embeds the partition/dispatch/merge/retry engine of
DataPortalExchangeBase, the backtest adapter DataPortalExchangeBacktest
(spot-value lookup, reader selection, snapshot discovery) and the stub
get_adjusted_value, and proves the testable properties of the design
document about them.

Modelling conventions:
  - Python exceptions become an explicit error type PyErr carried in
    Except; the except-clauses of the source become matches on that error.
  - The external exchange handles (live network clients) are modelled as
    dispatch oracles: functions from the global dispatch-call index, the
    exchange name and the asset argument to a result or an error.  The
    call index makes stateful behaviour (fail k times, then succeed)
    expressible.
  - Python values returned by an adapter (a scalar or a list, possibly
    nested by the merge) are modelled by the inductive PyObj.
  - The embedding of each query entry point also returns the number of
    dispatch calls made and the number of retry sleeps taken, so that
    attempt counting and delay claims are statable.
  - The source is Python 2 (it subscripts dict.keys()).  The builtin dict
    that groups assets by exchange is modelled as an association list in
    first-seen key order; the content of the grouping is faithful, while
    the iteration order of a CPython 2 hash dict is an interpreter detail
    outside the model (see the design notes on merge order).
-/

namespace Catalyst

/-- Error taxonomy of the source: ExchangeRequestError is the designated
transient source-communication failure, ExchangeBarDataError the terminal
exhausted-retry error, BundleNotFoundError the missing-bundle construction
error; ValueError, TypeError, IndexError and reader errors are the other
(non-transient) Python exceptions the embedded code can raise. -/
inductive PyErr where
  | exchangeRequest (code : Nat)
  | exchangeBarData (dataType : String) (attempts : Nat) (cause : PyErr)
  | bundleNotFound (exchange : String)
  | valueError (msg : String)
  | typeError (msg : String)
  | indexError (msg : String)
  | readerError (code : Nat)
  deriving DecidableEq, Repr

/-- Only ExchangeRequestError is caught by the retry except-clauses. -/
def PyErr.isTransient : PyErr → Bool
  | .exchangeRequest _ => true
  | _ => false

/-- An asset (TradingPair): an identifier plus the name of its owning
exchange, mirroring asset.sid and asset.exchange. -/
structure Asset where
  sid : Nat
  exchange : String
  deriving DecidableEq, Repr

/-- The assets argument of a spot-value query: either a single TradingPair
or a list of assets, mirroring the isinstance(assets, TradingPair) test. -/
inductive QueryAssets where
  | pair (a : Asset)
  | list (as : List Asset)
  deriving DecidableEq, Repr

/-- A query is nonempty when it names at least one instrument. -/
def QueryAssets.nonempty : QueryAssets → Prop
  | .pair _ => True
  | .list as => as ≠ []

/-- A Python value as handled by the spot merge: a scalar, or a list
whose items are again such values (the merge can nest them). -/
inductive PyObj (α : Type) where
  | scalar (v : α)
  | list (items : List (PyObj α))

/-- One step of building the exchange_assets dict: look the exchange of
the asset up, append the asset to its group if present, otherwise add a
new group at the end.  This is the content of

    if asset.exchange not in exchange_assets:
        exchange_assets[asset.exchange] = list()
    exchange_assets[asset.exchange].append(asset)

with the dict modelled as an association list in first-seen key order. -/
def groupInsert : List (String × List Asset) → Asset → List (String × List Asset)
  | [], a => [(a.exchange, [a])]
  | g :: gs, a =>
      if g.1 = a.exchange then (g.1, g.2 ++ [a]) :: gs else g :: groupInsert gs a

/-- The partition step shared by both queries: group the assets of the
query by owning exchange. -/
def partitionAssets (assets : List Asset) : List (String × List Asset) :=
  assets.foldl groupInsert []

/-- All assets of all groups, in group order. -/
def flattenGroups : List (String × List Asset) → List Asset
  | [] => []
  | g :: gs => g.2 ++ flattenGroups gs

theorem flattenGroups_groupInsert (gs : List (String × List Asset)) (a : Asset) :
    List.Perm (flattenGroups (groupInsert gs a)) (a :: flattenGroups gs) := by
  induction gs with
  | nil => simp [groupInsert, flattenGroups]
  | cons g gs ih =>
      by_cases h : g.1 = a.exchange
      · simp only [groupInsert, if_pos h]
        have heq : flattenGroups ((g.1, g.2 ++ [a]) :: gs)
            = g.2 ++ (a :: flattenGroups gs) := by
          simp [flattenGroups]
        rw [heq]
        exact List.perm_middle
      · simp only [groupInsert, if_neg h]
        have heq : flattenGroups (g :: groupInsert gs a)
            = g.2 ++ flattenGroups (groupInsert gs a) := rfl
        rw [heq, show flattenGroups (g :: gs) = g.2 ++ flattenGroups gs from rfl]
        exact (ih.append_left g.2).trans List.perm_middle

theorem flattenGroups_foldl (as : List Asset) (acc : List (String × List Asset)) :
    List.Perm (flattenGroups (as.foldl groupInsert acc)) (flattenGroups acc ++ as) := by
  induction as generalizing acc with
  | nil => simp
  | cons a as ih =>
      have h1 : (a :: as).foldl groupInsert acc
          = as.foldl groupInsert (groupInsert acc a) := rfl
      rw [h1]
      refine ((ih _).trans ?_)
      have h2 : List.Perm (flattenGroups (groupInsert acc a) ++ as)
          ((a :: flattenGroups acc) ++ as) :=
        (flattenGroups_groupInsert acc a).append_right as
      refine h2.trans ?_
      have h3 : (a :: flattenGroups acc) ++ as = a :: (flattenGroups acc ++ as) := rfl
      rw [h3]
      exact List.perm_middle.symm

/-- The partition neither drops nor duplicates an instrument. -/
theorem partitionAssets_perm (as : List Asset) :
    List.Perm (flattenGroups (partitionAssets as)) as := by
  simpa [flattenGroups] using flattenGroups_foldl as []

/-- The partition of a nonempty query is nonempty. -/
theorem partitionAssets_ne_nil (as : List Asset) (h : as ≠ []) :
    partitionAssets as ≠ [] := by
  intro hnil
  apply h
  have := partitionAssets_perm as
  rw [hnil] at this
  exact (this.nil_eq).symm

/-- Every group produced by the partition is nonempty. -/
theorem partitionAssets_groups_ne_nil (as : List Asset) :
    ∀ g ∈ partitionAssets as, g.2 ≠ [] := by
  have key : ∀ (l : List Asset) (acc : List (String × List Asset)),
      (∀ g ∈ acc, g.2 ≠ []) → ∀ g ∈ l.foldl groupInsert acc, g.2 ≠ [] := by
    intro l
    induction l with
    | nil => intro acc hacc; simpa using hacc
    | cons a l ih =>
        intro acc hacc
        refine ih (groupInsert acc a) ?_
        clear ih
        induction acc with
        | nil => simp [groupInsert]
        | cons g gs ihg =>
            by_cases h : g.1 = a.exchange
            · simp only [groupInsert, if_pos h]
              intro p hp
              rcases List.mem_cons.1 hp with hp | hp
              · simp [hp]
              · exact hacc p (List.mem_cons_of_mem g hp)
            · simp only [groupInsert, if_neg h]
              intro p hp
              rcases List.mem_cons.1 hp with hp | hp
              · exact hacc p (by simp [hp])
              · exact ihg (fun q hq => hacc q (List.mem_cons_of_mem g hq)) p hp
  intro g hg
  exact key as [] (by simp) g hg

/-- Every asset lands in the group of its own exchange. -/
theorem partitionAssets_uniform (as : List Asset) :
    ∀ g ∈ partitionAssets as, ∀ a ∈ g.2, a.exchange = g.1 := by
  have step : ∀ (acc : List (String × List Asset)) (a : Asset),
      (∀ g ∈ acc, ∀ b ∈ g.2, b.exchange = g.1) →
      ∀ g ∈ groupInsert acc a, ∀ b ∈ g.2, b.exchange = g.1 := by
    intro acc a hacc
    induction acc with
    | nil =>
        intro g hg b hb
        simp only [groupInsert, List.mem_singleton] at hg
        subst hg
        simp only [List.mem_singleton] at hb
        simp [hb]
    | cons g0 gs ihg =>
        by_cases h : g0.1 = a.exchange
        · simp only [groupInsert, if_pos h]
          intro g hg b hb
          rcases List.mem_cons.1 hg with hg | hg
          · subst hg
            simp only at hb
            rcases List.mem_append.1 hb with hb | hb
            · exact hacc g0 (by simp) b hb
            · simp only [List.mem_singleton] at hb
              subst hb
              exact h.symm
          · exact hacc g (List.mem_cons_of_mem g0 hg) b hb
        · simp only [groupInsert, if_neg h]
          intro g hg b hb
          rcases List.mem_cons.1 hg with hg | hg
          · exact hacc g (by simp [hg]) b hb
          · exact ihg (fun q hq => hacc q (List.mem_cons_of_mem g0 hq)) g hg b hb
  have key : ∀ (l : List Asset) (acc : List (String × List Asset)),
      (∀ g ∈ acc, ∀ b ∈ g.2, b.exchange = g.1) →
      ∀ g ∈ l.foldl groupInsert acc, ∀ b ∈ g.2, b.exchange = g.1 := by
    intro l
    induction l with
    | nil => intro acc hacc; simpa using hacc
    | cons a l ih => intro acc hacc; exact ih (groupInsert acc a) (step acc a hacc)
  exact key as [] (by simp)

/-- Folding assets of one fixed exchange into a single group of that
exchange only extends that group. -/
theorem foldl_groupInsert_single (k : String) (l : List Asset) (acc : List Asset)
    (h : ∀ a ∈ l, a.exchange = k) :
    l.foldl groupInsert [(k, acc)] = [(k, acc ++ l)] := by
  induction l generalizing acc with
  | nil => simp
  | cons a l ih =>
      have ha : a.exchange = k := h a (by simp)
      have : groupInsert [(k, acc)] a = [(k, acc ++ [a])] := by
        simp [groupInsert, ha]
      calc (a :: l).foldl groupInsert [(k, acc)]
          = l.foldl groupInsert (groupInsert [(k, acc)] a) := rfl
        _ = l.foldl groupInsert [(k, acc ++ [a])] := by rw [this]
        _ = [(k, (acc ++ [a]) ++ l)] := ih (acc ++ [a]) (fun b hb => h b (by simp [hb]))
        _ = [(k, acc ++ a :: l)] := by simp

/-- A nonempty list of assets that all share one exchange partitions into
exactly the one group of that exchange. -/
theorem partitionAssets_uniform_eq (k : String) (l : List Asset)
    (hne : l ≠ []) (h : ∀ a ∈ l, a.exchange = k) :
    partitionAssets l = [(k, l)] := by
  cases l with
  | nil => exact absurd rfl hne
  | cons a l =>
      have ha : a.exchange = k := h a (by simp)
      have h1 : groupInsert [] a = [(k, [a])] := by simp [groupInsert, ha]
      calc partitionAssets (a :: l)
          = l.foldl groupInsert (groupInsert [] a) := rfl
        _ = l.foldl groupInsert [(k, [a])] := by rw [h1]
        _ = [(k, [a] ++ l)] :=
            foldl_groupInsert_single k l [a] (fun b hb => h b (by simp [hb]))
        _ = [(k, a :: l)] := by simp

/-- A group returned by the partition partitions back into itself: its
assets are nonempty and uniform in its exchange.  This is what the retry
recursion receives after the loop rebinds the assets variable. -/
theorem partitionAssets_of_group (as : List Asset) (g : String × List Asset)
    (hg : g ∈ partitionAssets as) : partitionAssets g.2 = [(g.1, g.2)] := by
  exact partitionAssets_uniform_eq g.1 g.2
    (partitionAssets_groups_ne_nil as g hg)
    (partitionAssets_uniform as g hg)

/-- Configured attempt limit of get_history_window, from __init__. -/
def retry_get_history_window : Nat := 5

/-- Configured attempt limit of get_spot_value, from __init__. -/
def retry_get_spot_value : Nat := 5

/-- Fixed inter-attempt delay (seconds slept per retry), from __init__. -/
def retry_delay : Nat := 5

/-- A dispatch oracle for get_exchange_spot_value: given the index of the
dispatch call (how many dispatch calls the query has made so far, which
lets one oracle model a handle that fails some calls and then succeeds),
the exchange name and the assets argument, return the adapter result or
raise.  The Live adapter is a pure pass-through to the exchange handle, so
the oracle directly models exchange.get_spot_value as well. -/
def SpotOracle (α : Type) : Type :=
  Nat → String → QueryAssets → Except PyErr (PyObj α)

/-- A dispatch oracle for get_exchange_history_window.  The returned
DataFrame is modelled as its list of rows, so that pd.concat becomes list
concatenation. -/
def HistOracle (α : Type) : Type :=
  Nat → String → List Asset → Except PyErr (List α)

/-- The multi-exchange loop of _get_spot_value:

    spot_values = []
    for exchange_name in exchange_assets:
        exchange = self.exchanges[exchange_name]
        assets = exchange_assets[exchange_name]
        exchange_spot_values = self.get_exchange_spot_value(...)
        if len(assets) == 1:
            spot_values.append(exchange_spot_values)
        else:
            spot_values += exchange_spot_values

On an error the loop also reports the current value of the rebound local
variable assets (the group being dispatched), because the except-clause of
the source passes that variable to the retry recursion.  A += on a scalar
raises TypeError as in Python. -/
def spotLoop (oracle : SpotOracle α) :
    List (String × List Asset) → List (PyObj α) → Nat →
    Except (PyErr × List Asset) (List (PyObj α)) × Nat
  | [], spotValues, calls => (.ok spotValues, calls)
  | (name, gAssets) :: rest, spotValues, calls =>
      match oracle calls name (.list gAssets) with
      | .error e => (.error (e, gAssets), calls + 1)
      | .ok r =>
          if gAssets.length = 1 then
            spotLoop oracle rest (spotValues ++ [r]) (calls + 1)
          else
            match r with
            | .list items => spotLoop oracle rest (spotValues ++ items) (calls + 1)
            | .scalar _ => (.error (.typeError "not iterable", gAssets), calls + 1)

/-- The try-block of _get_spot_value: the TradingPair fast path, the
single-exchange path (which passes the original assets list through
unmodified), and the multi-exchange loop.  Returns the result or the
raised error together with the value the local variable assets has at
that point, plus the updated dispatch-call counter. -/
def spotAttempt (oracle : SpotOracle α) (assets : QueryAssets) (calls : Nat) :
    Except (PyErr × QueryAssets) (PyObj α) × Nat :=
  match assets with
  | .pair a =>
      match oracle calls a.exchange (.pair a) with
      | .ok r => (.ok r, calls + 1)
      | .error e => (.error (e, .pair a), calls + 1)
  | .list as =>
      if (partitionAssets as).length = 1 then
        match oracle calls (partitionAssets as).headI.1 (.list as) with
        | .ok r => (.ok r, calls + 1)
        | .error e => (.error (e, .list as), calls + 1)
      else
        match spotLoop oracle (partitionAssets as) [] calls with
        | (.ok vs, c) => (.ok (.list vs), c)
        | (.error (e, ga), c) => (.error (e, .list ga), c)

/-- The retry loop of _get_spot_value.  The source tests
attempt_index < self.retry_get_spot_value before recursing with
attempt_index + 1; the embedding carries, next to attemptIndex, the
equal quantity gas = retryLimit - attemptIndex as the structural
recursion fuel: gas is positive exactly when attempt_index < retry limit.
sleeps counts the executed sleep(self.retry_delay) calls. -/
def spotRetryGo (oracle : SpotOracle α) (retryLimit : Nat) :
    Nat → QueryAssets → Nat → Nat → Nat →
    Except PyErr (PyObj α) × Nat × Nat
  | gas, assets, attemptIndex, calls, sleeps =>
      match spotAttempt oracle assets calls with
      | (.ok r, c) => (.ok r, c, sleeps)
      | (.error (e, reboundAssets), c) =>
          if e.isTransient then
            match gas with
            | g + 1 => spotRetryGo oracle retryLimit g reboundAssets
                (attemptIndex + 1) c (sleeps + 1)
            | 0 => (.error (.exchangeBarData "spot" attemptIndex e), c, sleeps)
          else
            (.error e, c, sleeps)

/-- Public retry-wrapped entry point get_spot_value, returning the result
together with the total number of dispatch calls and retry sleeps. -/
def get_spot_value (oracle : SpotOracle α) (retryLimit : Nat)
    (assets : QueryAssets) : Except PyErr (PyObj α) × Nat × Nat :=
  spotRetryGo oracle retryLimit retryLimit assets 0 0 0

/-- The multi-exchange loop of _get_history_window: dispatch each group,
collect the frames in df_list, report the rebound assets variable on an
error. -/
def histLoop (oracle : HistOracle α) :
    List (String × List Asset) → List (List α) → Nat →
    Except (PyErr × List Asset) (List (List α)) × Nat
  | [], dfList, calls => (.ok dfList, calls)
  | (name, gAssets) :: rest, dfList, calls =>
      match oracle calls name gAssets with
      | .ok df => histLoop oracle rest (dfList ++ [df]) (calls + 1)
      | .error e => (.error (e, gAssets), calls + 1)

/-- The try-block of _get_history_window: more than one exchange loops
and concatenates (pd.concat becomes List.join of the row lists), exactly
one exchange calls the handle with the original assets list, and zero
groups (an empty query) raises IndexError at exchange_assets.keys()[0]. -/
def histAttempt (oracle : HistOracle α) (assets : List Asset) (calls : Nat) :
    Except (PyErr × List Asset) (List α) × Nat :=
  if 1 < (partitionAssets assets).length then
    match histLoop oracle (partitionAssets assets) [] calls with
    | (.ok dfs, c) => (.ok dfs.flatten, c)
    | (.error pe, c) => (.error pe, c)
  else if (partitionAssets assets).length = 0 then
    (.error (.indexError "list index out of range", assets), calls)
  else
    match oracle calls (partitionAssets assets).headI.1 assets with
    | .ok df => (.ok df, calls + 1)
    | .error e => (.error (e, assets), calls + 1)

/-- The retry loop of _get_history_window, with the same gas encoding of
attempt_index < self.retry_get_history_window as spotRetryGo. -/
def histRetryGo (oracle : HistOracle α) (retryLimit : Nat) :
    Nat → List Asset → Nat → Nat → Nat →
    Except PyErr (List α) × Nat × Nat
  | gas, assets, attemptIndex, calls, sleeps =>
      match histAttempt oracle assets calls with
      | (.ok df, c) => (.ok df, c, sleeps)
      | (.error (e, reboundAssets), c) =>
          if e.isTransient then
            match gas with
            | g + 1 => histRetryGo oracle retryLimit g reboundAssets
                (attemptIndex + 1) c (sleeps + 1)
            | 0 => (.error (.exchangeBarData "history" attemptIndex e), c, sleeps)
          else
            (.error e, c, sleeps)

/-- Public retry-wrapped entry point get_history_window. -/
def get_history_window (oracle : HistOracle α) (retryLimit : Nat)
    (assets : List Asset) : Except PyErr (List α) × Nat × Nat :=
  histRetryGo oracle retryLimit retryLimit assets 0 0 0

/-- The frequency-tiered reader registry of DataPortalExchangeBacktest:
for each exchange name, one reader per bar granularity.  A reader is a
function of (sid, dt, field), as in reader.get_value(sid, dt, field),
raising (an error value) on missing data. -/
structure BacktestReaders (α : Type) where
  minute_bar_readers : String → Nat → Nat → String → Except PyErr α
  five_minute_bar_readers : String → Nat → Nat → String → Except PyErr α
  daily_bar_readers : String → Nat → Nat → String → Except PyErr α

/-- The reader-selection prefix of the backtest get_exchange_spot_value:

    if data_frequency == 'minute': reader = self.minute_bar_readers[...]
    elif data_frequency == '5-minute': ...
    elif data_frequency == 'daily': ...
    else: raise ValueError('Unsupported frequency') -/
def selectReader (readers : BacktestReaders α) (exchangeName : String)
    (data_frequency : String) :
    Except PyErr (Nat → Nat → String → Except PyErr α) :=
  if data_frequency = "minute" then
    .ok (readers.minute_bar_readers exchangeName)
  else if data_frequency = "5-minute" then
    .ok (readers.five_minute_bar_readers exchangeName)
  else if data_frequency = "daily" then
    .ok (readers.daily_bar_readers exchangeName)
  else
    .error (.valueError "Unsupported frequency")

/-- One iteration of the per-asset lookup loop: reader.get_value wrapped
in try/except Exception, appending the value on success and the sentinel
None on any reader error. -/
def spotRead (reader : Nat → Nat → String → Except PyErr α) (dt : Nat)
    (field : String) (a : Asset) : Option α :=
  match reader a.sid dt field with
  | .ok v => some v
  | .error _ => none

/-- The backtest adapter get_exchange_spot_value: select a reader by data
granularity, look every asset up (substituting the sentinel for failing
ones), and return the single value for a one-asset list, the list of
values otherwise. -/
def get_exchange_spot_value (readers : BacktestReaders α)
    (exchangeName : String) (assets : List Asset) (field : String) (dt : Nat)
    (data_frequency : String) : Except PyErr (PyObj (Option α)) :=
  match selectReader readers exchangeName data_frequency with
  | .error e => .error e
  | .ok reader =>
      let values := assets.map (spotRead reader dt field)
      if assets.length = 1 then
        .ok (.scalar values.headI)
      else
        .ok (.list (values.map PyObj.scalar))

/-- The backtest adapter plugged into the engine as a spot dispatch
oracle.  A TradingPair argument hands the adapter its single asset; under
the claims below this case is only exercised where the result does not
depend on the assets argument at all. -/
def backtestOracle (readers : BacktestReaders α) (field : String) (dt : Nat)
    (data_frequency : String) : SpotOracle (Option α) :=
  fun _calls name qa =>
    get_exchange_spot_value readers name
      (match qa with
       | .pair a => [a]
       | .list as => as)
      field dt data_frequency

/-- The body of the snapshot scan loop of find_most_recent_time: keep the
single-entry dict (folder, date) and replace it whenever a strictly more
recent date appears.  The dict with at most one entry becomes an Option
pair, dict.keys()[0] its first component. -/
def mostRecentStep (decode : String → Nat) :
    Option (String × Nat) → String → Option (String × Nat) :=
  fun most folder =>
    match most with
    | none => some (folder, decode folder)
    | some m =>
        if decode folder > m.2 then some (folder, decode folder) else some m

/-- find_most_recent_time: os.listdir is modelled by its outcome listing
(none is the OSError branch), from_bundle_ingest_dirname by the decode
parameter (an external collaborator of the file). -/
def find_most_recent_time (decode : String → Nat)
    (listing : Option (List String)) : Option String :=
  match listing with
  | none => none
  | some folders =>
      (folders.foldl (mostRecentStep decode) none).map Prod.fst

/-- bundle_name: 'exchange_{}'.format(exchange_name). -/
def bundle_name (exchange_name : String) : String :=
  "exchange_" ++ exchange_name

/-- The readers DataPortalExchangeBacktest.__init__ opens for one
exchange: the daily, five-minute and minute readers, each recorded with
the snapshot folder its storage path is derived from. -/
structure OpenedReaders where
  exchange_name : String
  daily_folder : String
  five_minute_folder : String
  minute_folder : String
  deriving DecidableEq, Repr

/-- The construction loop of DataPortalExchangeBacktest.__init__: for
every exchange, find the most recent snapshot of its bundle directory
(fs models the filesystem: bundle name to listing outcome), raise
BundleNotFoundError when there is none, and otherwise open the three
readers against that snapshot folder. -/
def backtest_init (decode : String → Nat) (fs : String → Option (List String)) :
    List String → Except PyErr (List OpenedReaders)
  | [] => .ok []
  | ex :: rest =>
      match find_most_recent_time decode (fs (bundle_name ex)) with
      | none => .error (.bundleNotFound ex)
      | some folder =>
          match backtest_init decode fs rest with
          | .ok rs => .ok (⟨ex, folder, folder, folder⟩ :: rs)
          | .error e => .error e

/-- get_adjusted_value: the unimplemented stub.  It has access to the
dispatch oracle and the readers of the portal (self), touches neither,
logs a warning and returns its spot_value argument, whose Python default
is None. -/
def get_adjusted_value (_oracle : SpotOracle γ) (_readers : BacktestReaders γ)
    (_asset : Asset) (_field : String) (_dt : Nat) (_perspective_dt : Nat)
    (_data_frequency : String) (spot_value : Option α) : Option α :=
  spot_value

/-- Unfolding of the multi-group (or empty) branch of spotAttempt. -/
theorem spotAttempt_list_multi (oracle : SpotOracle α) (as : List Asset)
    (calls : Nat) (hlen : (partitionAssets as).length ≠ 1) :
    spotAttempt oracle (.list as) calls =
      match spotLoop oracle (partitionAssets as) [] calls with
      | (.ok vs, c) => (.ok (.list vs), c)
      | (.error (e, ga), c) => (.error (e, .list ga), c) := by
  simp only [spotAttempt, if_neg hlen]

/-- Against an oracle that raises err(n) at its n-th dispatch call, one
try-block pass over a nonempty query makes exactly one dispatch call and
reports the error of that call, with a nonempty rebound assets value. -/
theorem spotAttempt_fail (oracle : SpotOracle α) (err : Nat → PyErr)
    (ho : ∀ n name qa, oracle n name qa = .error (err n))
    (qa : QueryAssets) (hne : qa.nonempty) (calls : Nat) :
    ∃ rqa, spotAttempt oracle qa calls = (.error (err calls, rqa), calls + 1) ∧
      rqa.nonempty := by
  cases qa with
  | pair a =>
      refine ⟨.pair a, ?_, trivial⟩
      simp [spotAttempt, ho]
  | list as =>
      have hne' : as ≠ [] := hne
      by_cases hlen : (partitionAssets as).length = 1
      · refine ⟨.list as, ?_, hne'⟩
        simp only [spotAttempt, if_pos hlen, ho]
      · rw [spotAttempt_list_multi oracle as calls hlen]
        rcases hgro : partitionAssets as with _ | ⟨⟨name, gAssets⟩, rest⟩
        · exact absurd hgro (partitionAssets_ne_nil as hne')
        · refine ⟨.list gAssets, ?_, ?_⟩
          · simp only [spotLoop, ho]
          · exact partitionAssets_groups_ne_nil as (name, gAssets)
              (by rw [hgro]; exact List.mem_cons_self _ _)

/-- Unfolding of the multi-group branch of histAttempt. -/
theorem histAttempt_multi (oracle : HistOracle α) (as : List Asset)
    (calls : Nat) (hlen : 1 < (partitionAssets as).length) :
    histAttempt oracle as calls =
      match histLoop oracle (partitionAssets as) [] calls with
      | (.ok dfs, c) => (.ok dfs.flatten, c)
      | (.error pe, c) => (.error pe, c) := by
  simp only [histAttempt, if_pos hlen]

/-- History-window analogue of spotAttempt_fail. -/
theorem histAttempt_fail (oracle : HistOracle α) (err : Nat → PyErr)
    (ho : ∀ n name gs, oracle n name gs = .error (err n))
    (as : List Asset) (hne : as ≠ []) (calls : Nat) :
    ∃ ras, histAttempt oracle as calls = (.error (err calls, ras), calls + 1) ∧
      ras ≠ [] := by
  by_cases hlen : 1 < (partitionAssets as).length
  · rw [histAttempt_multi oracle as calls hlen]
    rcases hgro : partitionAssets as with _ | ⟨⟨name, gAssets⟩, rest⟩
    · exact absurd hgro (partitionAssets_ne_nil as hne)
    · refine ⟨gAssets, ?_, ?_⟩
      · simp only [histLoop, ho]
      · exact partitionAssets_groups_ne_nil as (name, gAssets)
          (by rw [hgro]; exact List.mem_cons_self _ _)
  · have hz : (partitionAssets as).length ≠ 0 := by
      intro h0
      exact partitionAssets_ne_nil as hne (List.length_eq_zero.1 h0)
    refine ⟨as, ?_, hne⟩
    simp only [histAttempt, if_neg hlen, if_neg hz, ho]

/-- One retry-loop step of the spot entry point: a successful attempt
returns its result and sleeps taken so far. -/
theorem spotRetryGo_ok (oracle : SpotOracle α) (retryLimit gas : Nat)
    (qa : QueryAssets) (attemptIndex calls sleeps c : Nat) (r : PyObj α)
    (heq : spotAttempt oracle qa calls = (.ok r, c)) :
    spotRetryGo oracle retryLimit gas qa attemptIndex calls sleeps =
      (.ok r, c, sleeps) := by
  conv_lhs => rw [spotRetryGo]
  rw [heq]

/-- One retry-loop step: a transient error with attempts left sleeps once
and recurses on the rebound assets with the attempt index incremented. -/
theorem spotRetryGo_retry (oracle : SpotOracle α) (retryLimit gas : Nat)
    (qa rqa : QueryAssets) (attemptIndex calls sleeps c : Nat) (e : PyErr)
    (heq : spotAttempt oracle qa calls = (.error (e, rqa), c))
    (htr : e.isTransient = true) :
    spotRetryGo oracle retryLimit (gas + 1) qa attemptIndex calls sleeps =
      spotRetryGo oracle retryLimit gas rqa (attemptIndex + 1) c (sleeps + 1) := by
  conv_lhs => rw [spotRetryGo]
  rw [heq]
  simp [htr]

/-- One retry-loop step: a transient error with the attempt budget used
up raises the terminal ExchangeBarDataError tagged "spot". -/
theorem spotRetryGo_exhausted (oracle : SpotOracle α) (retryLimit : Nat)
    (qa rqa : QueryAssets) (attemptIndex calls sleeps c : Nat) (e : PyErr)
    (heq : spotAttempt oracle qa calls = (.error (e, rqa), c))
    (htr : e.isTransient = true) :
    spotRetryGo oracle retryLimit 0 qa attemptIndex calls sleeps =
      (.error (.exchangeBarData "spot" attemptIndex e), c, sleeps) := by
  conv_lhs => rw [spotRetryGo]
  rw [heq]
  simp [htr]

/-- One retry-loop step: a non-transient error propagates unchanged. -/
theorem spotRetryGo_raise (oracle : SpotOracle α) (retryLimit gas : Nat)
    (qa rqa : QueryAssets) (attemptIndex calls sleeps c : Nat) (e : PyErr)
    (heq : spotAttempt oracle qa calls = (.error (e, rqa), c))
    (htr : e.isTransient = false) :
    spotRetryGo oracle retryLimit gas qa attemptIndex calls sleeps =
      (.error e, c, sleeps) := by
  conv_lhs => rw [spotRetryGo]
  rw [heq]
  simp [htr]

/-- History analogues of the four step lemmas. -/
theorem histRetryGo_ok (oracle : HistOracle α) (retryLimit gas : Nat)
    (as : List Asset) (attemptIndex calls sleeps c : Nat) (df : List α)
    (heq : histAttempt oracle as calls = (.ok df, c)) :
    histRetryGo oracle retryLimit gas as attemptIndex calls sleeps =
      (.ok df, c, sleeps) := by
  conv_lhs => rw [histRetryGo]
  rw [heq]

theorem histRetryGo_retry (oracle : HistOracle α) (retryLimit gas : Nat)
    (as ras : List Asset) (attemptIndex calls sleeps c : Nat) (e : PyErr)
    (heq : histAttempt oracle as calls = (.error (e, ras), c))
    (htr : e.isTransient = true) :
    histRetryGo oracle retryLimit (gas + 1) as attemptIndex calls sleeps =
      histRetryGo oracle retryLimit gas ras (attemptIndex + 1) c (sleeps + 1) := by
  conv_lhs => rw [histRetryGo]
  rw [heq]
  simp [htr]

theorem histRetryGo_exhausted (oracle : HistOracle α) (retryLimit : Nat)
    (as ras : List Asset) (attemptIndex calls sleeps c : Nat) (e : PyErr)
    (heq : histAttempt oracle as calls = (.error (e, ras), c))
    (htr : e.isTransient = true) :
    histRetryGo oracle retryLimit 0 as attemptIndex calls sleeps =
      (.error (.exchangeBarData "history" attemptIndex e), c, sleeps) := by
  conv_lhs => rw [histRetryGo]
  rw [heq]
  simp [htr]

theorem histRetryGo_raise (oracle : HistOracle α) (retryLimit gas : Nat)
    (as ras : List Asset) (attemptIndex calls sleeps c : Nat) (e : PyErr)
    (heq : histAttempt oracle as calls = (.error (e, ras), c))
    (htr : e.isTransient = false) :
    histRetryGo oracle retryLimit gas as attemptIndex calls sleeps =
      (.error e, c, sleeps) := by
  conv_lhs => rw [histRetryGo]
  rw [heq]
  simp [htr]

/-- Retry exhaustion for the spot entry point: gas more failing attempts
after attemptIndex accumulate gas + 1 further dispatch calls and gas
sleeps, and end in the terminal error tagged with the final attempt
index and the error of the final dispatch call. -/
theorem spotRetryGo_fail (oracle : SpotOracle α) (err : Nat → PyErr)
    (ho : ∀ n name qa, oracle n name qa = .error (err n))
    (htr : ∀ n, (err n).isTransient = true) (retryLimit : Nat) :
    ∀ gas (qa : QueryAssets), qa.nonempty → ∀ attemptIndex calls sleeps,
    spotRetryGo oracle retryLimit gas qa attemptIndex calls sleeps =
      (.error (.exchangeBarData "spot" (attemptIndex + gas) (err (calls + gas))),
        calls + gas + 1, sleeps + gas) := by
  intro gas
  induction gas with
  | zero =>
      intro qa hne attemptIndex calls sleeps
      obtain ⟨rqa, heq, _⟩ := spotAttempt_fail oracle err ho qa hne calls
      rw [spotRetryGo_exhausted oracle retryLimit qa rqa attemptIndex calls sleeps
        (calls + 1) (err calls) heq (htr calls)]
      simp
  | succ g ih =>
      intro qa hne attemptIndex calls sleeps
      obtain ⟨rqa, heq, hrne⟩ := spotAttempt_fail oracle err ho qa hne calls
      rw [spotRetryGo_retry oracle retryLimit g qa rqa attemptIndex calls sleeps
        (calls + 1) (err calls) heq (htr calls)]
      rw [ih rqa hrne (attemptIndex + 1) (calls + 1) (sleeps + 1)]
      have e1 : attemptIndex + 1 + g = attemptIndex + (g + 1) := by omega
      have e2 : calls + 1 + g = calls + (g + 1) := by omega
      have e3 : sleeps + 1 + g = sleeps + (g + 1) := by omega
      rw [e1, e2, e3]

/-- History analogue of spotRetryGo_fail. -/
theorem histRetryGo_fail (oracle : HistOracle α) (err : Nat → PyErr)
    (ho : ∀ n name gs, oracle n name gs = .error (err n))
    (htr : ∀ n, (err n).isTransient = true) (retryLimit : Nat) :
    ∀ gas (as : List Asset), as ≠ [] → ∀ attemptIndex calls sleeps,
    histRetryGo oracle retryLimit gas as attemptIndex calls sleeps =
      (.error (.exchangeBarData "history" (attemptIndex + gas) (err (calls + gas))),
        calls + gas + 1, sleeps + gas) := by
  intro gas
  induction gas with
  | zero =>
      intro as hne attemptIndex calls sleeps
      obtain ⟨ras, heq, _⟩ := histAttempt_fail oracle err ho as hne calls
      rw [histRetryGo_exhausted oracle retryLimit as ras attemptIndex calls sleeps
        (calls + 1) (err calls) heq (htr calls)]
      simp
  | succ g ih =>
      intro as hne attemptIndex calls sleeps
      obtain ⟨ras, heq, hrne⟩ := histAttempt_fail oracle err ho as hne calls
      rw [histRetryGo_retry oracle retryLimit g as ras attemptIndex calls sleeps
        (calls + 1) (err calls) heq (htr calls)]
      rw [ih ras hrne (attemptIndex + 1) (calls + 1) (sleeps + 1)]
      have e1 : attemptIndex + 1 + g = attemptIndex + (g + 1) := by omega
      have e2 : calls + 1 + g = calls + (g + 1) := by omega
      have e3 : sleeps + 1 + g = sleeps + (g + 1) := by omega
      rw [e1, e2, e3]

/-- C1: against a source handle that always raises the transient failure
(at call n with transient error f n resp. g n), a spot-value query with
attempt limit N makes exactly N + 1 dispatch calls and N retry sleeps
and raises ExchangeBarDataError with data_type "spot", attempts = N and
the error of the last dispatch call as cause; a history-window query does
the same with data_type "history". -/
theorem C1_retry_exhaustion {α β : Type} (oracleS : SpotOracle α)
    (oracleH : HistOracle β) (f g : Nat → Nat) (N : Nat)
    (qa : QueryAssets) (as : List Asset)
    (hoS : ∀ n name arg, oracleS n name arg = .error (.exchangeRequest (f n)))
    (hoH : ∀ n name arg, oracleH n name arg = .error (.exchangeRequest (g n)))
    (hqa : qa.nonempty) (has : as ≠ []) :
    get_spot_value oracleS N qa =
      (.error (.exchangeBarData "spot" N (.exchangeRequest (f N))), N + 1, N) ∧
    get_history_window oracleH N as =
      (.error (.exchangeBarData "history" N (.exchangeRequest (g N))), N + 1, N) := by
  constructor
  · have := spotRetryGo_fail oracleS (fun n => .exchangeRequest (f n)) hoS
      (fun n => rfl) N N qa hqa 0 0 0
    simpa [get_spot_value] using this
  · have := histRetryGo_fail oracleH (fun n => .exchangeRequest (g n)) hoH
      (fun n => rfl) N N as has 0 0 0
    simpa [get_history_window] using this

/-- Concrete instantiation of C1_retry_exhaustion: two exchanges, always
failing dispatch, the default attempt limit 5; six dispatch calls, five
sleeps, terminal error with attempts 5 and the last transient cause. -/
theorem C1_retry_exhaustion_witness :
    QueryAssets.nonempty (.list [⟨1, "e1"⟩, ⟨2, "e2"⟩]) ∧
    get_spot_value (α := Nat) (fun n _ _ => .error (.exchangeRequest n))
        retry_get_spot_value (.list [⟨1, "e1"⟩, ⟨2, "e2"⟩]) =
      (.error (.exchangeBarData "spot" 5 (.exchangeRequest 5)), 6, 5) ∧
    get_history_window (α := Nat) (fun n _ _ => .error (.exchangeRequest n))
        retry_get_history_window [⟨1, "e1"⟩, ⟨2, "e2"⟩] =
      (.error (.exchangeBarData "history" 5 (.exchangeRequest 5)), 6, 5) := by
  have h := C1_retry_exhaustion (α := Nat) (β := Nat)
    (fun n _ _ => .error (.exchangeRequest n))
    (fun n _ _ => .error (.exchangeRequest n))
    (fun n => n) (fun n => n) 5
    (.list [⟨1, "e1"⟩, ⟨2, "e2"⟩]) [⟨1, "e1"⟩, ⟨2, "e2"⟩]
    (fun n name arg => rfl) (fun n name arg => rfl)
    (by simp [QueryAssets.nonempty]) (by simp)
  exact ⟨by simp [QueryAssets.nonempty], h.1, h.2⟩

/-- Unfolding of the single-group branch of spotAttempt: the original
assets list is passed through to the adapter. -/
theorem spotAttempt_list_single (oracle : SpotOracle α) (as : List Asset)
    (calls : Nat) (hlen : (partitionAssets as).length = 1) :
    spotAttempt oracle (.list as) calls =
      match oracle calls (partitionAssets as).headI.1 (.list as) with
      | .ok r => (.ok r, calls + 1)
      | .error e => (.error (e, .list as), calls + 1) := by
  simp only [spotAttempt, if_pos hlen]

/-- Unfolding of the single-group branch of histAttempt. -/
theorem histAttempt_single (oracle : HistOracle α) (as : List Asset)
    (calls : Nat) (hlen : (partitionAssets as).length = 1) :
    histAttempt oracle as calls =
      match oracle calls (partitionAssets as).headI.1 as with
      | .ok df => (.ok df, calls + 1)
      | .error e => (.error (e, as), calls + 1) := by
  have h1 : ¬ 1 < (partitionAssets as).length := by omega
  have h2 : ¬ (partitionAssets as).length = 0 := by omega
  simp only [histAttempt, if_neg h1, if_neg h2]

/-- C6: an error of the partition/dispatch/merge pass that is not the
transient kind makes the retry-wrapped entry points propagate exactly
that error with zero retry sleeps and no further dispatch calls, both
for spot values and for history windows. -/
theorem C6_nontransient_immediate {α β : Type} (oracleS : SpotOracle α)
    (oracleH : HistOracle β) (qa rqa : QueryAssets) (as ras : List Asset)
    (N : Nat) (e1 e2 : PyErr) (c1 c2 : Nat)
    (h1 : spotAttempt oracleS qa 0 = (.error (e1, rqa), c1))
    (ht1 : e1.isTransient = false)
    (h2 : histAttempt oracleH as 0 = (.error (e2, ras), c2))
    (ht2 : e2.isTransient = false) :
    get_spot_value oracleS N qa = (.error e1, c1, 0) ∧
    get_history_window oracleH N as = (.error e2, c2, 0) := by
  constructor
  · exact spotRetryGo_raise oracleS N N qa rqa 0 0 0 c1 e1 h1 ht1
  · exact histRetryGo_raise oracleH N N as ras 0 0 0 c2 e2 h2 ht2

/-- Concrete instantiation of C6_nontransient_immediate: a ValueError
raised by dispatch reaches the caller unchanged after one dispatch call
and zero sleeps. -/
theorem C6_nontransient_immediate_witness :
    spotAttempt (α := Nat) (fun _ _ _ => .error (.valueError "boom"))
        (.pair ⟨1, "e1"⟩) 0 =
      (.error (.valueError "boom", .pair ⟨1, "e1"⟩), 1) ∧
    get_spot_value (α := Nat) (fun _ _ _ => .error (.valueError "boom")) 5
        (.pair ⟨1, "e1"⟩) = (.error (.valueError "boom"), 1, 0) ∧
    get_history_window (α := Nat) (fun _ _ _ => .error (.valueError "boom")) 5
        [⟨1, "e1"⟩] = (.error (.valueError "boom"), 1, 0) := by
  have h := C6_nontransient_immediate (α := Nat) (β := Nat)
    (fun _ _ _ => .error (.valueError "boom"))
    (fun _ _ _ => .error (.valueError "boom"))
    (.pair ⟨1, "e1"⟩) (.pair ⟨1, "e1"⟩) [⟨1, "e1"⟩] [⟨1, "e1"⟩]
    5 (.valueError "boom") (.valueError "boom") 1 1
    rfl rfl rfl rfl
  exact ⟨rfl, h.1, h.2⟩

/-- C4: when the instruments of a query all belong to one source, both
entry points return the raw adapter result of the single dispatch call
unmodified (whatever Python object shape r and whatever frame df the
adapter produced), after exactly one dispatch call and no sleeps. -/
theorem C4_single_source_raw {α β : Type} (oracleS : SpotOracle α)
    (oracleH : HistOracle β) (as : List Asset) (N : Nat) (k : String)
    (l : List Asset) (hpart : partitionAssets as = [(k, l)])
    (r : PyObj α) (df : List β)
    (hS : oracleS 0 k (.list as) = .ok r)
    (hH : oracleH 0 k as = .ok df) :
    get_spot_value oracleS N (.list as) = (.ok r, 1, 0) ∧
    get_history_window oracleH N as = (.ok df, 1, 0) := by
  have hlen : (partitionAssets as).length = 1 := by rw [hpart]; rfl
  have hhead : (partitionAssets as).headI.1 = k := by rw [hpart]; rfl
  constructor
  · have hatt : spotAttempt oracleS (.list as) 0 = (.ok r, 1) := by
      rw [spotAttempt_list_single oracleS as 0 hlen, hhead, hS]
    exact spotRetryGo_ok oracleS N N (.list as) 0 0 0 1 r hatt
  · have hatt : histAttempt oracleH as 0 = (.ok df, 1) := by
      rw [histAttempt_single oracleH as 0 hlen, hhead, hH]
    exact histRetryGo_ok oracleH N N as 0 0 0 1 df hatt

/-- Concrete instantiation of C4_single_source_raw: two instruments of
one exchange; the adapter result object comes back untouched. -/
theorem C4_single_source_raw_witness :
    partitionAssets [⟨1, "e1"⟩, ⟨2, "e1"⟩] =
      [("e1", [⟨1, "e1"⟩, ⟨2, "e1"⟩])] ∧
    get_spot_value (α := Nat)
        (fun _ _ _ => .ok (.list [.scalar 10, .scalar 20])) 5
        (.list [⟨1, "e1"⟩, ⟨2, "e1"⟩]) =
      (.ok (.list [.scalar 10, .scalar 20]), 1, 0) ∧
    get_history_window (α := Nat) (fun _ _ _ => .ok [10, 20]) 5
        [⟨1, "e1"⟩, ⟨2, "e1"⟩] = (.ok [10, 20], 1, 0) := by
  have h := C4_single_source_raw (α := Nat) (β := Nat)
    (fun _ _ _ => .ok (.list [.scalar 10, .scalar 20]))
    (fun _ _ _ => .ok [10, 20])
    [⟨1, "e1"⟩, ⟨2, "e1"⟩] 5 "e1" [⟨1, "e1"⟩, ⟨2, "e1"⟩]
    rfl (.list [.scalar 10, .scalar 20]) [10, 20] rfl rfl
  exact ⟨rfl, h.1, h.2⟩

/-- The collaborator contract of get_exchange_spot_value for a source
that answers successfully: a single-instrument call returns the bare
scalar, a multi-instrument call the flat list of per-asset values.  This
is the shape both adapters produce (the backtest one literally, via
values[0] versus values). -/
def contractSpot (v : Asset → α) : List Asset → PyObj α
  | [] => .list []
  | [a] => .scalar (v a)
  | a :: b :: rest => .list ((a :: b :: rest).map fun x => .scalar (v x))

/-- Over contract-respecting successful dispatches, the merge loop of
_get_spot_value appends the scalar of each singleton group and extends
with the elements of each larger group: the accumulated list is exactly
the per-asset values of the flattened groups, one dispatch call per
group. -/
theorem spotLoop_contract (oracle : SpotOracle α) (v : Asset → α)
    (ho : ∀ n name gs, oracle n name (.list gs) = .ok (contractSpot v gs)) :
    ∀ (groups : List (String × List Asset)), (∀ p ∈ groups, p.2 ≠ []) →
    ∀ (acc : List (PyObj α)) (calls : Nat),
    spotLoop oracle groups acc calls =
      (.ok (acc ++ (flattenGroups groups).map fun a => .scalar (v a)),
        calls + groups.length) := by
  intro groups
  induction groups with
  | nil => intro _ acc calls; simp [spotLoop, flattenGroups]
  | cons g rest ih =>
      intro hg acc calls
      obtain ⟨name, gAssets⟩ := g
      have hne : gAssets ≠ [] := hg (name, gAssets) (List.mem_cons_self _ _)
      have hrest : ∀ p ∈ rest, p.2 ≠ [] :=
        fun p hp => hg p (List.mem_cons_of_mem _ hp)
      cases gAssets with
      | nil => exact absurd rfl hne
      | cons a t =>
          cases t with
          | nil =>
              have hstep : spotLoop oracle ((name, [a]) :: rest) acc calls =
                  spotLoop oracle rest (acc ++ [.scalar (v a)]) (calls + 1) := by
                simp only [spotLoop, ho, contractSpot]
                rfl
              rw [hstep, ih hrest, Prod.mk.injEq]
              constructor
              · simp [flattenGroups, List.append_assoc]
              · simp only [List.length_cons]
                omega
          | cons b t2 =>
              have hstep : spotLoop oracle ((name, a :: b :: t2) :: rest) acc calls =
                  spotLoop oracle rest
                    (acc ++ (a :: b :: t2).map fun x => .scalar (v x))
                    (calls + 1) := by
                have hlen : ¬ (a :: b :: t2).length = 1 := by simp
                simp only [spotLoop, ho, contractSpot, if_neg hlen]
              rw [hstep, ih hrest, Prod.mk.injEq]
              constructor
              · simp [flattenGroups, List.append_assoc]
              · simp only [List.length_cons]
                omega

/-- C3: a spot-value query spanning several sources, answered by a
contract-respecting adapter, merges into a single flat list whose length
is the total instrument count and whose elements are a permutation of
the per-instrument values of the query (nothing dropped, nothing
duplicated), with one dispatch call per source and no retry. -/
theorem C3_multi_source_merge {α : Type} (oracle : SpotOracle α)
    (v : Asset → α) (as : List Asset) (N : Nat)
    (ho : ∀ n name gs, oracle n name (.list gs) = .ok (contractSpot v gs))
    (hmulti : 1 < (partitionAssets as).length) :
    get_spot_value oracle N (.list as) =
      (.ok (.list ((flattenGroups (partitionAssets as)).map
          fun a => .scalar (v a))),
        (partitionAssets as).length, 0) ∧
    ((flattenGroups (partitionAssets as)).map
        fun a => PyObj.scalar (v a)).length = as.length ∧
    List.Perm
      ((flattenGroups (partitionAssets as)).map fun a => PyObj.scalar (v a))
      (as.map fun a => PyObj.scalar (v a)) := by
  have hperm := partitionAssets_perm as
  refine ⟨?_, ?_, ?_⟩
  · have hlen1 : (partitionAssets as).length ≠ 1 := by omega
    have hatt : spotAttempt oracle (.list as) 0 =
        (.ok (.list ((flattenGroups (partitionAssets as)).map
          fun a => .scalar (v a))), (partitionAssets as).length) := by
      rw [spotAttempt_list_multi oracle as 0 hlen1]
      rw [spotLoop_contract oracle v ho (partitionAssets as)
        (partitionAssets_groups_ne_nil as) [] 0]
      simp
    exact spotRetryGo_ok oracle N N (.list as) 0 0 0
      (partitionAssets as).length _ hatt
  · rw [List.length_map]
    exact hperm.length_eq
  · exact hperm.map _

/-- Concrete instantiation of C3_multi_source_merge: three instruments
over two exchanges merge into the three per-instrument values. -/
def vC3 : Asset → Nat := fun a => a.sid * 10

/-- Contract-respecting success oracle used by the C3 witness. -/
def oracleC3 : SpotOracle Nat := fun _ _ qa =>
  match qa with
  | .list gs => .ok (contractSpot vC3 gs)
  | .pair a => .ok (.scalar (vC3 a))

theorem C3_multi_source_merge_witness :
    1 < (partitionAssets [⟨1, "e1"⟩, ⟨2, "e2"⟩, ⟨3, "e2"⟩]).length ∧
    get_spot_value oracleC3 5 (.list [⟨1, "e1"⟩, ⟨2, "e2"⟩, ⟨3, "e2"⟩]) =
      (.ok (.list [.scalar 10, .scalar 20, .scalar 30]), 2, 0) := by
  refine ⟨by decide, ?_⟩
  have h := C3_multi_source_merge oracleC3 vC3
    [⟨1, "e1"⟩, ⟨2, "e2"⟩, ⟨3, "e2"⟩] 5
    (fun n name gs => rfl) (by decide)
  rw [h.1]
  rfl

/-- C7: a multi-instrument backtest spot lookup with a validly selected
reader returns an ok list (no exception escapes the loop) of the same
length as the instrument list, whose entry for each asset is the sentinel
none exactly when the reader raises for that asset and the real reader
value otherwise. -/
theorem C7_backtest_missing_data {α : Type} (readers : BacktestReaders α)
    (name field : String) (dt : Nat) (freq : String)
    (reader : Nat → Nat → String → Except PyErr α) (assets : List Asset)
    (hsel : selectReader readers name freq = .ok reader)
    (hmulti : 2 ≤ assets.length)
    (_hfail : ∃ a ∈ assets, spotRead reader dt field a = none) :
    get_exchange_spot_value readers name assets field dt freq =
      .ok (.list (assets.map fun a => PyObj.scalar (spotRead reader dt field a))) ∧
    (assets.map fun a => PyObj.scalar (spotRead reader dt field a)).length
      = assets.length ∧
    (∀ a ∈ assets, ∀ e, reader a.sid dt field = .error e →
      spotRead reader dt field a = none) ∧
    (∀ a ∈ assets, ∀ w, reader a.sid dt field = .ok w →
      spotRead reader dt field a = some w) := by
  refine ⟨?_, List.length_map _ _, ?_, ?_⟩
  · have hne1 : ¬ assets.length = 1 := by omega
    simp only [get_exchange_spot_value, hsel, if_neg hne1, List.map_map]
    rfl
  · intro a _ e he
    simp [spotRead, he]
  · intro a _ w hw
    simp [spotRead, hw]

/-- Registry used by the C7 and C9 witnesses: the daily reader raises
for sid 2 and answers sid * 100 otherwise. -/
def readersC7 : BacktestReaders Nat :=
  ⟨fun _ sid _ _ => .ok (sid * 2),
   fun _ sid _ _ => .ok (sid * 3),
   fun _ sid _ _ => if sid = 2 then .error (.readerError 0) else .ok (sid * 100)⟩

/-- The daily reader of readersC7 for exchange e1. -/
def readerC7 : Nat → Nat → String → Except PyErr Nat :=
  readersC7.daily_bar_readers "e1"

/-- Concrete instantiation of C7_backtest_missing_data: three
instruments, the reader raising for the second only; the adapter returns
a three-element list with the sentinel exactly in position 2. -/
theorem C7_backtest_missing_data_witness :
    selectReader readersC7 "e1" "daily" = .ok readerC7 ∧
    2 ≤ ([⟨1, "e1"⟩, ⟨2, "e1"⟩, ⟨3, "e1"⟩] : List Asset).length ∧
    (∃ a ∈ ([⟨1, "e1"⟩, ⟨2, "e1"⟩, ⟨3, "e1"⟩] : List Asset),
      spotRead readerC7 9 "close" a = none) ∧
    get_exchange_spot_value readersC7 "e1" [⟨1, "e1"⟩, ⟨2, "e1"⟩, ⟨3, "e1"⟩]
        "close" 9 "daily" =
      .ok (.list [.scalar (some 100), .scalar none, .scalar (some 300)]) := by
  have h := C7_backtest_missing_data readersC7 "e1" "close" 9 "daily" readerC7
    [⟨1, "e1"⟩, ⟨2, "e1"⟩, ⟨3, "e1"⟩] rfl (by decide) (by decide)
  refine ⟨rfl, by decide, by decide, ?_⟩
  rw [h.1]
  rfl

/-- C9: a spot-value request with a granularity that is none of minute,
5-minute and daily fails with the ValueError before any reader is read
(the result does not depend on the readers at all), the error is not of
the transient kind, and the retry-wrapped entry point propagates it
after a single dispatch call with no retry sleep. -/
theorem C9_unsupported_granularity {α : Type} (readers readersB : BacktestReaders α)
    (name field : String) (dt : Nat) (freq : String) (assets : List Asset)
    (qa : QueryAssets) (N : Nat)
    (h1 : freq ≠ "minute") (h2 : freq ≠ "5-minute") (h3 : freq ≠ "daily")
    (hqa : qa.nonempty) :
    get_exchange_spot_value readers name assets field dt freq =
      .error (.valueError "Unsupported frequency") ∧
    get_exchange_spot_value readers name assets field dt freq =
      get_exchange_spot_value readersB name assets field dt freq ∧
    PyErr.isTransient (.valueError "Unsupported frequency") = false ∧
    get_spot_value (backtestOracle readers field dt freq) N qa =
      (.error (.valueError "Unsupported frequency"), 1, 0) := by
  have hval : ∀ (rs : BacktestReaders α) (nm : String) (asts : List Asset),
      get_exchange_spot_value rs nm asts field dt freq =
        .error (.valueError "Unsupported frequency") := by
    intro rs nm asts
    simp only [get_exchange_spot_value, selectReader,
      if_neg h1, if_neg h2, if_neg h3]
  refine ⟨hval readers name assets, ?_, rfl, ?_⟩
  · rw [hval readers name assets, hval readersB name assets]
  · have ho : ∀ n nm qa2, backtestOracle readers field dt freq n nm qa2 =
        .error (.valueError "Unsupported frequency") := by
      intro n nm qa2
      cases qa2 with
      | pair a => exact hval readers nm [a]
      | list as2 => exact hval readers nm as2
    obtain ⟨rqa, heq, _⟩ := spotAttempt_fail (backtestOracle readers field dt freq)
      (fun _ => .valueError "Unsupported frequency") ho qa hqa 0
    exact spotRetryGo_raise _ N N qa rqa 0 0 0 1 _ heq rfl

/-- A second registry, used to exhibit reader-independence in the C9
witness. -/
def readersC9 : BacktestReaders Nat :=
  ⟨fun _ sid _ _ => .ok (sid + 1),
   fun _ sid _ _ => .ok (sid + 2),
   fun _ sid _ _ => .ok (sid + 3)⟩

/-- Concrete instantiation of C9_unsupported_granularity at the
granularity string "hourly". -/
theorem C9_unsupported_granularity_witness :
    get_exchange_spot_value readersC7 "e1" [⟨1, "e1"⟩] "close" 9 "hourly" =
      .error (.valueError "Unsupported frequency") ∧
    get_exchange_spot_value readersC7 "e1" [⟨1, "e1"⟩] "close" 9 "hourly" =
      get_exchange_spot_value readersC9 "e1" [⟨1, "e1"⟩] "close" 9 "hourly" ∧
    get_spot_value (backtestOracle readersC7 "close" 9 "hourly") 5
        (.pair ⟨1, "e1"⟩) =
      (.error (.valueError "Unsupported frequency"), 1, 0) := by
  have h := C9_unsupported_granularity readersC7 readersC9 "e1" "close" 9
    "hourly" [⟨1, "e1"⟩] (.pair ⟨1, "e1"⟩) 5
    (by decide) (by decide) (by decide) trivial
  exact ⟨h.1, h.2.1, h.2.2.2⟩

/-- Folding further snapshot folders onto a current best (f0, decode f0)
yields the folder of maximum decoded timestamp among f0 and the rest
(keeping the earlier one on ties, since only a strictly greater date
replaces the entry). -/
theorem mostRecent_fold_some (decode : String → Nat) :
    ∀ (folders : List String) (f0 : String),
    ∃ f, folders.foldl (mostRecentStep decode) (some (f0, decode f0)) =
        some (f, decode f) ∧
      (f = f0 ∨ f ∈ folders) ∧ decode f0 ≤ decode f ∧
      ∀ g ∈ folders, decode g ≤ decode f := by
  intro folders
  induction folders with
  | nil =>
      intro f0
      exact ⟨f0, rfl, Or.inl rfl, Nat.le_refl _, by simp⟩
  | cons g gs ih =>
      intro f0
      by_cases h : decode g > decode f0
      · have hstep : (g :: gs).foldl (mostRecentStep decode) (some (f0, decode f0)) =
            gs.foldl (mostRecentStep decode) (some (g, decode g)) := by
          simp only [List.foldl_cons, mostRecentStep, if_pos h]
        obtain ⟨f, hf, hmem, hle, hall⟩ := ih g
        refine ⟨f, by rw [hstep]; exact hf, ?_, ?_, ?_⟩
        · rcases hmem with rfl | hm
          · exact Or.inr (by simp)
          · exact Or.inr (List.mem_cons_of_mem g hm)
        · exact Nat.le_trans (Nat.le_of_lt h) hle
        · intro x hx
          rcases List.mem_cons.1 hx with rfl | hx
          · exact hle
          · exact hall x hx
      · have hstep : (g :: gs).foldl (mostRecentStep decode) (some (f0, decode f0)) =
            gs.foldl (mostRecentStep decode) (some (f0, decode f0)) := by
          simp only [List.foldl_cons, mostRecentStep, if_neg h]
        obtain ⟨f, hf, hmem, hle, hall⟩ := ih f0
        refine ⟨f, by rw [hstep]; exact hf, ?_, hle, ?_⟩
        · rcases hmem with rfl | hm
          · exact Or.inl rfl
          · exact Or.inr (List.mem_cons_of_mem g hm)
        · intro x hx
          rcases List.mem_cons.1 hx with rfl | hx
          · exact Nat.le_trans (Nat.le_of_not_lt h) hle
          · exact hall x hx

/-- find_most_recent_time on a nonempty listing returns a folder of the
listing whose decoded timestamp is maximal. -/
theorem find_most_recent_time_max (decode : String → Nat)
    (folders : List String) (h : folders ≠ []) :
    ∃ f, find_most_recent_time decode (some folders) = some f ∧
      f ∈ folders ∧ ∀ g ∈ folders, decode g ≤ decode f := by
  cases folders with
  | nil => exact absurd rfl h
  | cons g gs =>
      have hstep : (g :: gs).foldl (mostRecentStep decode) none =
          gs.foldl (mostRecentStep decode) (some (g, decode g)) := by
        simp only [List.foldl_cons, mostRecentStep]
      obtain ⟨f, hf, hmem, hle, hall⟩ := mostRecent_fold_some decode gs g
      refine ⟨f, ?_, ?_, ?_⟩
      · simp only [find_most_recent_time, hstep, hf]
        rfl
      · rcases hmem with rfl | hm
        · exact List.mem_cons_self _ _
        · exact List.mem_cons_of_mem g hm
      · intro x hx
        rcases List.mem_cons.1 hx with rfl | hx
        · exact hle
        · exact hall x hx

/-- The construction loop raises BundleNotFoundError for the first
exchange whose bundle has no snapshot, after the exchanges before it
resolved theirs. -/
theorem backtest_init_error (decode : String → Nat)
    (fs : String → Option (List String)) :
    ∀ (pre : List String) (ex : String) (post : List String),
    (∀ e ∈ pre, (find_most_recent_time decode (fs (bundle_name e))).isSome) →
    find_most_recent_time decode (fs (bundle_name ex)) = none →
    backtest_init decode fs (pre ++ ex :: post) =
      .error (.bundleNotFound ex) := by
  intro pre
  induction pre with
  | nil =>
      intro ex post _ hex
      simp only [List.nil_append, backtest_init, hex]
  | cons p pre ih =>
      intro ex post hpre hex
      have hp := hpre p (List.mem_cons_self _ _)
      obtain ⟨fp, hfp⟩ := Option.isSome_iff_exists.1 hp
      have hrec := ih ex post (fun e he => hpre e (List.mem_cons_of_mem p he)) hex
      simp only [List.cons_append, backtest_init, hfp]
      rw [show pre.append (ex :: post) = pre ++ ex :: post from rfl, hrec]

/-- When the construction loop completes, it yields one record per
exchange in order, and each record's three readers are opened against
the single snapshot folder that find_most_recent_time selected for that
exchange's bundle. -/
theorem backtest_init_ok (decode : String → Nat)
    (fs : String → Option (List String)) :
    ∀ (names : List String) (rs : List OpenedReaders),
    backtest_init decode fs names = .ok rs →
    rs.map OpenedReaders.exchange_name = names ∧
    ∀ r ∈ rs,
      find_most_recent_time decode (fs (bundle_name r.exchange_name)) =
        some r.daily_folder ∧
      r.five_minute_folder = r.daily_folder ∧
      r.minute_folder = r.daily_folder := by
  intro names
  induction names with
  | nil =>
      intro rs h
      simp only [backtest_init] at h
      obtain rfl : ([] : List OpenedReaders) = rs := Except.ok.inj h
      exact ⟨rfl, by simp⟩
  | cons ex rest ih =>
      intro rs h
      simp only [backtest_init] at h
      cases hf : find_most_recent_time decode (fs (bundle_name ex)) with
      | none => rw [hf] at h; exact absurd h (by simp)
      | some folder =>
          rw [hf] at h
          cases hr : backtest_init decode fs rest with
          | error e => rw [hr] at h; exact absurd h (by simp)
          | ok rs2 =>
              rw [hr] at h
              obtain rfl : (⟨ex, folder, folder, folder⟩ : OpenedReaders) :: rs2 = rs :=
                Except.ok.inj h
              obtain ⟨hmap, hall⟩ := ih rs2 hr
              refine ⟨by simp [hmap], ?_⟩
              intro r hrmem
              rcases List.mem_cons.1 hrmem with rfl | hm
              · exact ⟨hf, rfl, rfl⟩
              · exact hall r hm

/-- C8: find_most_recent_time selects, from a nonempty snapshot listing,
a folder of maximal decoded ingestion timestamp, and returns none for an
absent scan directory (OSError) or an empty listing; the construction
loop opens the daily, five-minute and minute readers of every exchange
against exactly that selected folder, and raises BundleNotFoundError for
an exchange whose bundle has no snapshot instead of completing. -/
theorem C8_snapshot_selection (decode : String → Nat)
    (fs : String → Option (List String)) (names : List String) :
    (∀ folders, folders ≠ [] →
      ∃ f, find_most_recent_time decode (some folders) = some f ∧
        f ∈ folders ∧ ∀ g ∈ folders, decode g ≤ decode f) ∧
    find_most_recent_time decode none = none ∧
    find_most_recent_time decode (some []) = none ∧
    (∀ pre ex post, names = pre ++ ex :: post →
      (∀ e ∈ pre, (find_most_recent_time decode (fs (bundle_name e))).isSome) →
      find_most_recent_time decode (fs (bundle_name ex)) = none →
      backtest_init decode fs names = .error (.bundleNotFound ex)) ∧
    (∀ rs, backtest_init decode fs names = .ok rs →
      rs.map OpenedReaders.exchange_name = names ∧
      ∀ r ∈ rs,
        find_most_recent_time decode (fs (bundle_name r.exchange_name)) =
          some r.daily_folder ∧
        r.five_minute_folder = r.daily_folder ∧
        r.minute_folder = r.daily_folder) := by
  refine ⟨find_most_recent_time_max decode, rfl, rfl, ?_, ?_⟩
  · intro pre ex post hn hpre hex
    rw [hn]
    exact backtest_init_error decode fs pre ex post hpre hex
  · intro rs h
    exact backtest_init_ok decode fs names rs h

/-- Decoder of the C8 witness: t1, t2, t3 decode to 1 < 2 < 3. -/
def decodeC8 : String → Nat :=
  fun s => if s = "t3" then 3 else if s = "t2" then 2 else 1

/-- Filesystem of the C8 witness: the bundle of e1 has three snapshots,
every other bundle directory is absent. -/
def fsC8 : String → Option (List String) :=
  fun b => if b = "exchange_e1" then some ["t1", "t2", "t3"] else none

/-- Concrete instantiation of C8_snapshot_selection: among snapshots
t1 < t2 < t3 the registry picks t3 and opens all three readers against
it; an exchange without snapshots makes construction fail with
BundleNotFoundError. -/
theorem C8_snapshot_selection_witness :
    (∃ f, find_most_recent_time decodeC8 (some ["t1", "t2", "t3"]) = some f ∧
      f ∈ ["t1", "t2", "t3"] ∧
      ∀ g ∈ ["t1", "t2", "t3"], decodeC8 g ≤ decodeC8 f) ∧
    backtest_init decodeC8 fsC8 ["e1", "e2"] = .error (.bundleNotFound "e2") ∧
    backtest_init decodeC8 fsC8 ["e1"] = .ok [⟨"e1", "t3", "t3", "t3"⟩] ∧
    find_most_recent_time decodeC8 (fsC8 (bundle_name "e1")) = some "t3" := by
  refine ⟨?_, ?_, rfl, ?_⟩
  · exact (C8_snapshot_selection decodeC8 fsC8 []).1 ["t1", "t2", "t3"] (by simp)
  · exact (C8_snapshot_selection decodeC8 fsC8 ["e1", "e2"]).2.2.2.1
      ["e1"] "e2" [] rfl (by decide) rfl
  · exact (((C8_snapshot_selection decodeC8 fsC8 ["e1"]).2.2.2.2
      [⟨"e1", "t3", "t3", "t3"⟩] rfl).2 ⟨"e1", "t3", "t3", "t3"⟩ (by simp)).1

/-- C10: get_adjusted_value performs no dispatch and no reader lookup
(its result is the same for any oracle and any readers) and returns
exactly its spot_value argument, whose omitted-argument default is
none. -/
theorem C10_adjusted_value_identity {α γ : Type} (o1 o2 : SpotOracle γ)
    (r1 r2 : BacktestReaders γ) (asset : Asset) (field : String)
    (dt pdt : Nat) (freq : String) (sv : Option α) :
    get_adjusted_value o1 r1 asset field dt pdt freq sv = sv ∧
    get_adjusted_value o1 r1 asset field dt pdt freq sv =
      get_adjusted_value o2 r2 asset field dt pdt freq sv ∧
    get_adjusted_value o1 r1 asset field dt pdt freq (none : Option α) = none :=
  ⟨rfl, rfl, rfl⟩

/-- Assets of the C2 evaluation: one instrument on each of two
exchanges. -/
def a1C2 : Asset := ⟨1, "e1"⟩

/-- Second asset of the C2 evaluation, owned by exchange e2. -/
def a2C2 : Asset := ⟨2, "e2"⟩

/-- Per-asset spot values of the C2 evaluation. -/
def vC2 : Asset → Nat := fun a => a.sid * 10

/-- Contract-respecting oracle that always succeeds (the pure success
path of the C2 evaluation). -/
def pureOracleC2 : SpotOracle Nat := fun _ _ qa =>
  match qa with
  | .list gs => .ok (contractSpot vC2 gs)
  | .pair a => .ok (.scalar (vC2 a))

/-- Oracle that raises the transient error on the first dispatch call
only (k = 1 transient failures, then success). -/
def failOnceOracleC2 : SpotOracle Nat := fun n name qa =>
  if n = 0 then .error (.exchangeRequest 7) else pureOracleC2 n name qa

/-- C2 fails on the code: for the two-exchange query [a1C2, a2C2] with
one transient failure and attempt limit 5 (1 < 5), the retried query
succeeds but returns the value of exchange e1 only, because the
except-clause retries with the loop-rebound assets variable (the first
group) instead of the original query; the pure success path returns the
merged list of both per-exchange values, a different result. -/
theorem C2_retry_rebinds_assets :
    get_spot_value failOnceOracleC2 5 (.list [a1C2, a2C2]) =
      (.ok (.scalar 10), 2, 1) ∧
    get_spot_value pureOracleC2 5 (.list [a1C2, a2C2]) =
      (.ok (.list [.scalar 10, .scalar 20]), 2, 0) ∧
    (PyObj.scalar 10 : PyObj Nat) ≠ .list [.scalar 10, .scalar 20] := by
  refine ⟨rfl, rfl, ?_⟩
  intro h
  cases h

end Catalyst
